import Mathlib

/-!
Verification of the audio-driven animation playback pipeline and its
interruption protocol of the open-llm-vtuber web frontend.

The embedding follows the TypeScript sources: the conversation state machine
and interruption coordinator (useInterrupt / useAudioTask / useMicrophone),
and the WAV loudness extractor (LAppWavFileHandler).  JavaScript numbers are
idealised as rationals; non-finite numeric results (NaN, Infinity) are
modelled explicitly as `none` of an `Option` where a claim depends on them.
-/

namespace OpenLLMVTuber

/-- Conversation state of the AI, matching the string union used by the
frontend contexts: "idle" | "listening" | "thinking-speaking" |
"interrupted". -/
inductive AiState where
  | idle
  | listening
  | thinkingSpeaking
  | interrupted
deriving DecidableEq

/-- Options of one queued audio task (interface AudioTaskOptions). -/
structure AudioTaskOptions where
  audio_base64 : String
  volumes : List ℚ
  slice_length : ℕ
  text : Option String
  expression_list : Option (List String)
deriving DecidableEq

/-- Observable side effects emitted by the interruption coordinator
(useInterrupt.interrupt) and by the VAD onSpeechStart callback.  `stopAudio`
stands for stopping the audio owned by the animation sink
(model._wavFileHandler.stop()); in the source that call appears only inside a
comment, so no code path emits it. -/
inductive Effect where
  | sendInterruptSignal (text : String)
  | setState (s : AiState)
  | stopAudio
  | clearQueue
deriving DecidableEq

/-- Effect trace of useInterrupt.interrupt, in source order:
sendMessage({type: "interrupt-signal", text: fullResponse});
setAiState("interrupted"); then a lookup of model 0 whose conditional body
performs nothing because the wav-handler stop() call is commented out;
finally audioTaskQueue.clearQueue(). -/
def interruptEffects (fullResponse : String) : List Effect :=
  [Effect.sendInterruptSignal fullResponse, Effect.setState AiState.interrupted,
    Effect.clearQueue]

/-- Modelled from the spec: the Playback Task Queue implementation behind the
audioTaskQueue singleton (utils/task-queue) is not among the provided sources,
only its callers are.  Per spec section 4.2, clear() discards all
not-yet-started tasks, leaving the pending-task list empty. -/
def clearQueue (_q : List AudioTaskOptions) : List AudioTaskOptions := []

/-- Outbound messages observable by the remote peer over the websocket. -/
inductive OutMessage where
  | interruptSignal (text : String)
  | micAudioData (audio : List ℚ)
  | micAudioEnd
deriving DecidableEq

/-- The state touched by the interruption coordinator: the shared conversation
state, the pending playback task queue, and the log of messages sent to the
remote peer. -/
structure ChatState where
  aiState : AiState
  queue : List AudioTaskOptions
  sent : List OutMessage
deriving DecidableEq

/-- Interpretation of one effect on the chat state. -/
def applyEffect (s : ChatState) (e : Effect) : ChatState :=
  match e with
  | Effect.sendInterruptSignal t =>
      { s with sent := s.sent ++ [OutMessage.interruptSignal t] }
  | Effect.setState a => { s with aiState := a }
  | Effect.stopAudio => s
  | Effect.clearQueue => { s with queue := clearQueue s.queue }

/-- Running interrupt() on a chat state: its effects applied in order. -/
def runInterrupt (fullResponse : String) (s : ChatState) : ChatState :=
  (interruptEffects fullResponse).foldl applyEffect s

/-- Effect trace of the VAD onSpeechStart callback: when aiState is
"thinking-speaking" it calls interrupt(), otherwise it only logs. -/
def onSpeechStartEffects (aiState : AiState) (fullResponse : String) :
    List Effect :=
  if aiState = AiState.thinkingSpeaking then interruptEffects fullResponse
  else []

/-- Whether an effect is the send of the interrupt-signal control message.
Each interrupt() call emits exactly one such send, so counting these sends
counts the interrupt() calls. -/
def isInterruptSend : Effect → Bool
  | Effect.sendInterruptSignal _ => true
  | _ => false

/-- Synchronous actions performed by useAudioTask.handleAudioPlayback.
`decodeAudio` covers the base64 decode, byte-array and blob construction and
object-URL creation; `setOnFinish` installs the deferred completion callback
on the wav handler; `callOnComplete` is the completion signal invoked
directly (the playSound path defers completion to the installed callback
instead). -/
inductive PlayAction where
  | logError
  | appendResponse (t : String)
  | setSubtitle (t : String)
  | decodeAudio
  | setOnFinish
  | startPlaySound
  | revokeUrl
  | setExpression (e : String)
  | callOnComplete
deriving DecidableEq

/-- The expression statement at the end of the try block: setExpression runs
when expression_list has a truthy first element (JavaScript truthiness: an
empty string is falsy). -/
def exprActions (opts : AudioTaskOptions) : List PlayAction :=
  match opts.expression_list with
  | some (e :: _) => if e = "" then [] else [PlayAction.setExpression e]
  | _ => []

/-- useAudioTask.handleAudioPlayback.  Environment flags: whether model 0 is
initialised, whether its wav handler exists, whether the base64 decode
succeeds (atob throws on malformed input, landing in the catch block), and
whether the awaited playSound resolves (a rejection also lands in the catch
block, skipping the expression statement).  The interrupted-state check comes
first; `text` is appended only when truthy. -/
def handleAudioPlayback (aiState : AiState) (opts : AudioTaskOptions)
    (modelPresent wavHandlerPresent decodeOk playOk : Bool) : List PlayAction :=
  if aiState = AiState.interrupted then
    [PlayAction.logError, PlayAction.callOnComplete]
  else
    (match opts.text with
      | some t =>
          if t = "" then []
          else [PlayAction.appendResponse t, PlayAction.setSubtitle t]
      | none => []) ++
    if modelPresent = false then [PlayAction.logError, PlayAction.callOnComplete]
    else if decodeOk = false then [PlayAction.logError, PlayAction.callOnComplete]
    else
      [PlayAction.decodeAudio] ++
      (if wavHandlerPresent then
        [PlayAction.setOnFinish, PlayAction.startPlaySound] ++
        (if playOk then exprActions opts
          else [PlayAction.logError, PlayAction.callOnComplete])
      else
        [PlayAction.logError, PlayAction.revokeUrl, PlayAction.callOnComplete] ++
          exprActions opts)

/-- useAudioTask.addAudioTask: when the conversation state is interrupted the
task is skipped and never enqueued; otherwise it is appended to the queue. -/
def addAudioTask (aiState : AiState) (q : List AudioTaskOptions)
    (opts : AudioTaskOptions) : List AudioTaskOptions :=
  if aiState = AiState.interrupted then q else q ++ [opts]

/-- useMicrophone.sendAudioPartition chunk loop: audio.slice(index,
min(index + 4096, length)) for index = 0, 4096, 8192, ... — equivalently a
take/drop recursion with chunk size 4096. -/
def chunkAudio : List ℚ → List (List ℚ)
  | [] => []
  | a :: rest =>
      (a :: rest).take 4096 :: chunkAudio ((a :: rest).drop 4096)
termination_by l => l.length
decreasing_by simp [List.length_drop]; omega

/-- useMicrophone.sendAudioPartition: one mic-audio-data message per chunk of
the captured segment, then one mic-audio-end message. -/
def sendAudioPartition (audio : List ℚ) : List OutMessage :=
  (chunkAudio audio).map OutMessage.micAudioData ++ [OutMessage.micAudioEnd]

/-- The chunk lengths produced by the 4096-sample chunk loop depend only on
the segment length; this computes them from the length alone. -/
def chunkSizes (n : ℕ) : List ℕ :=
  if _h : n = 0 then [] else min 4096 n :: chunkSizes (n - 4096)
termination_by n
decreasing_by omega

/-- The payloads of the mic-audio-data messages of a message list, in order. -/
def dataPayloads (msgs : List OutMessage) : List (List ℚ) :=
  msgs.filterMap (fun m =>
    match m with
    | OutMessage.micAudioData a => some a
    | _ => none)

/-- Input events seen by the VAD adapter, in arrival order: analysis frames
carrying a speech probability (onFrameProcessed) and speech-start events
(onSpeechStart). -/
inductive VadEvent where
  | frame (probability : ℚ)
  | speechStart
deriving DecidableEq

/-- The module-level previousTriggeredProbability variable after one event:
onFrameProcessed raises it to the frame probability when that is larger; no
callback ever resets it — onSpeechStart merely logs it. -/
def stepTriggeredProbability (p : ℚ) : VadEvent → ℚ
  | VadEvent.frame prob => if prob > p then prob else p
  | VadEvent.speechStart => p

/-- previousTriggeredProbability after a whole event sequence, starting from
its initial value 0. -/
def triggeredProbability (events : List VadEvent) : ℚ :=
  events.foldl stepTriggeredProbability 0

/-- The value the claim describes, following the spec words: the running
maximum probability observed since the last speech-start, that is, the same
fold but re-based to 0 at each speech-start event.  This definition follows
the specification, not the source; it exists to be compared against
`triggeredProbability`. -/
def specTriggeredProbability (events : List VadEvent) : ℚ :=
  events.foldl (fun p e =>
    match e with
    | VadEvent.frame prob => if prob > p then prob else p
    | VadEvent.speechStart => 0) 0

/-- The probability carried by a frame event, if any. -/
def frameProb : VadEvent → Option ℚ
  | VadEvent.frame prob => some prob
  | VadEvent.speechStart => none

/-- A JavaScript number that may be non-finite: `none` models NaN or an
infinity, `some q` a finite value idealised as a rational. -/
abbrev JsNum := Option ℚ

/-- Addition on JavaScript numbers: non-finite operands poison the result
(NaN propagates; the only sums our code forms are of finite values and
NaN). -/
def jsAdd : JsNum → JsNum → JsNum
  | some a, some b => some (a + b)
  | _, _ => none

/-- Multiplication on JavaScript numbers, with the same non-finite
poisoning. -/
def jsMul : JsNum → JsNum → JsNum
  | some a, some b => some (a * b)
  | _, _ => none

/-- JavaScript division: division by zero yields NaN (0/0) or an infinity
(x/0 with x nonzero), both in the non-finite class `none`; nonzero finite
divisors divide exactly. -/
def jsDiv : JsNum → JsNum → JsNum
  | some a, some b => if b = 0 then none else some (a / b)
  | _, _ => none

/-- Math.sqrt: NaN on non-finite or negative input (an infinity input gives
an infinite output, still non-finite), the exact square root otherwise. -/
noncomputable def jsSqrt : JsNum → Option ℝ
  | none => none
  | some q => if q < 0 then none else some (Real.sqrt q)

/-- The index values taken by a JavaScript loop
for (x = start; x < stop; x++): start, start + 1, ...; there are
max 0 ceil(stop - start) of them. -/
def ratRange (start stop : ℚ) : List ℚ :=
  (List.range (Int.toNat ⌈stop - start⌉)).map (fun (i : ℕ) => start + (i : ℚ))

/-- JavaScript array indexing l[i] for a rational index: a value when i is an
integer within bounds, undefined (`none`) otherwise. -/
def jsIndexG {α : Type} (l : List α) (i : ℚ) : Option α :=
  if i.den = 1 ∧ 0 ≤ i.num then l[i.num.toNat]? else none

/-- Header metadata held in LAppWavFileHandler._wavFileInfo. -/
structure WavFileInfo where
  fileName : String
  numberOfChannels : ℚ
  bitsPerSample : ℚ
  samplingRate : ℚ
  samplesPerChannel : ℚ
deriving DecidableEq

/-- The mutable fields of LAppWavFileHandler.  pcmData `none` is the null
array; the audio element and the onFinish callback are identified by numeric
tags (`none` = null).  lastRms is a JavaScript number that may be NaN, hence
an optional real. -/
structure WavHandlerState where
  pcmData : Option (List (List ℚ))
  userTimeSeconds : ℚ
  lastRms : Option ℝ
  sampleOffset : ℚ
  info : WavFileInfo
  audioElement : Option ℕ
  onFinish : Option ℕ

/-- The clamped goal sample offset computed by update(): the floor of the
advanced clock times the sampling rate, clamped from above (only) by
samplesPerChannel. -/
def goalOffset (deltaTimeSeconds : ℚ) (s : WavHandlerState) : ℚ :=
  let floored : ℚ :=
    ((⌊(s.userTimeSeconds + deltaTimeSeconds) * s.info.samplingRate⌋ : ℤ) : ℚ)
  if floored > s.info.samplesPerChannel then s.info.samplesPerChannel
  else floored

/-- The RMS measurement loop of update(): for each channel index below
numberOfChannels and each sample index in [lo, hi) accumulate pcm * pcm onto
the accumulator rms = 0.0.  An out-of-range or fractional index reads
undefined, and arithmetic on undefined is NaN (`none`).  The source would
throw a TypeError on an undefined channel row; loadWavFile always allocates
exactly numberOfChannels rows, so on the states it produces the two readings
agree, and the model uses the NaN reading. -/
def sumSquares (pcm : List (List ℚ)) (channels lo hi : ℚ) : JsNum :=
  (ratRange 0 channels).foldl (fun acc c =>
    (ratRange lo hi).foldl (fun acc2 i =>
      jsAdd acc2
        (jsMul ((jsIndexG pcm c).bind (fun row => jsIndexG row i))
          ((jsIndexG pcm c).bind (fun row => jsIndexG row i)))) acc)
    (some 0)

/-- LAppWavFileHandler.update(deltaTimeSeconds): the source's boolean result
and the state after the call.  With no data or with the position at the end
it caches 0 and reports false; otherwise it advances the clock, computes the
window sum of squares, divides by numberOfChannels * (goal - offset) with no
empty-window guard, takes Math.sqrt, caches the result and moves the
offset. -/
noncomputable def update (deltaTimeSeconds : ℚ) (s : WavHandlerState) :
    Bool × WavHandlerState :=
  match s.pcmData with
  | none => (false, { s with lastRms := some 0 })
  | some pcm =>
      if s.sampleOffset ≥ s.info.samplesPerChannel then
        (false, { s with lastRms := some 0 })
      else
        let goal := goalOffset deltaTimeSeconds s
        let rms := jsSqrt (jsDiv
          (sumSquares pcm s.info.numberOfChannels s.sampleOffset goal)
          (some (s.info.numberOfChannels * (goal - s.sampleOffset))))
        (true,
          { s with
            userTimeSeconds := s.userTimeSeconds + deltaTimeSeconds,
            lastRms := rms,
            sampleOffset := goal })

/-- LAppWavFileHandler.getRms: the cached RMS value. -/
def getRms (s : WavHandlerState) : Option ℝ := s.lastRms

/-- A handler state whose PCM data has just been loaded and whose playback
clock, offset and cached RMS were reset, as start() and playSound() do before
loading a file. -/
def loadedState (pcm : List (List ℚ)) (info : WavFileInfo) : WavHandlerState :=
  { pcmData := some pcm
    userTimeSeconds := 0
    lastRms := some 0
    sampleOffset := 0
    info := info
    audioElement := none
    onFinish := none }

/-- LAppWavFileHandler._byteReader: the loaded byte array (values 0..255) and
the read cursor.  DataView.getUint8 throws a RangeError outside [0, size);
a read returning `none` models that exception, which loadWavFile's try/catch
turns into a false result. -/
structure ByteReader where
  fileByte : List ℕ
  readOffset : ℤ
deriving DecidableEq

/-- ByteReader.get8: one bounds-checked byte, cursor advanced by 1. -/
def ByteReader.get8 (br : ByteReader) : Option (ℕ × ByteReader) :=
  if 0 ≤ br.readOffset ∧ br.readOffset < (br.fileByte.length : ℤ) then
    some (br.fileByte.getD br.readOffset.toNat 0,
      { br with readOffset := br.readOffset + 1 })
  else none

/-- ByteReader.get16LittleEndian: (getUint8(off + 1) << 8) | getUint8(off),
cursor advanced by 2.  Both byte reads are bounds-checked. -/
def ByteReader.get16 (br : ByteReader) : Option (ℕ × ByteReader) :=
  if 0 ≤ br.readOffset ∧ br.readOffset + 1 < (br.fileByte.length : ℤ) then
    some (br.fileByte.getD (br.readOffset + 1).toNat 0 * 256 +
        br.fileByte.getD br.readOffset.toNat 0,
      { br with readOffset := br.readOffset + 2 })
  else none

/-- ByteReader.get24LittleEndian: three bytes, cursor advanced by 3. -/
def ByteReader.get24 (br : ByteReader) : Option (ℕ × ByteReader) :=
  if 0 ≤ br.readOffset ∧ br.readOffset + 2 < (br.fileByte.length : ℤ) then
    some (br.fileByte.getD (br.readOffset + 2).toNat 0 * 65536 +
        br.fileByte.getD (br.readOffset + 1).toNat 0 * 256 +
        br.fileByte.getD br.readOffset.toNat 0,
      { br with readOffset := br.readOffset + 3 })
  else none

/-- The signed 32-bit value of (b3 << 24) | (b2 << 16) | (b1 << 8) | b0 in
JavaScript: bitwise operators work on Int32, so a high bit in b3 makes the
result negative. -/
def toInt32 (n : ℕ) : ℤ :=
  if n < 2 ^ 31 then (n : ℤ) else (n : ℤ) - 2 ^ 32

/-- ByteReader.get32LittleEndian: four bytes combined with Int32 bitwise
semantics, cursor advanced by 4. -/
def ByteReader.get32 (br : ByteReader) : Option (ℤ × ByteReader) :=
  if 0 ≤ br.readOffset ∧ br.readOffset + 3 < (br.fileByte.length : ℤ) then
    some (toInt32 (br.fileByte.getD (br.readOffset + 3).toNat 0 * 16777216 +
        br.fileByte.getD (br.readOffset + 2).toNat 0 * 65536 +
        br.fileByte.getD (br.readOffset + 1).toNat 0 * 256 +
        br.fileByte.getD br.readOffset.toNat 0),
      { br with readOffset := br.readOffset + 4 })
  else none

/-- ByteReader.getCheckSignature: false without reading when the reference
string is not 4 characters long; otherwise read 4 bytes and compare them with
the reference byte values. -/
def ByteReader.getCheckSignature (br : ByteReader) (ref : List ℕ) :
    Option (Bool × ByteReader) :=
  if ref.length ≠ 4 then some (false, br)
  else
    (br.get8).bind fun p0 =>
    (p0.2.get8).bind fun p1 =>
    (p1.2.get8).bind fun p2 =>
    (p2.2.get8).bind fun p3 =>
    some (([p0.1, p1.1, p2.1, p3.1] == ref : Bool), p3.2)

/-- The byte values of the signature "RIFF". -/
def riffSig : List ℕ := [82, 73, 70, 70]

/-- The byte values of the signature "WAVE". -/
def waveSig : List ℕ := [87, 65, 86, 69]

/-- The byte values of the signature "fmt " (with the trailing space). -/
def fmtSig : List ℕ := [102, 109, 116, 32]

/-- The byte values of the signature "data". -/
def dataSig : List ℕ := [100, 97, 116, 97]

/-- Exit status of the data-chunk scan loop of loadWavFile. -/
inductive ScanResult where
  | found (br : ByteReader)
  | pastEnd (br : ByteReader)
  | rangeError
  | diverged
deriving DecidableEq

/-- The data-chunk scan loop of loadWavFile:
while (!getCheckSignature("data") and readOffset < fileSize)
  readOffset += get32LittleEndian() + 4.
JavaScript evaluates the compound assignment by reading readOffset before the
right-hand side runs, so one iteration moves the cursor from the start of a
chunk header past its 4-byte id (read by getCheckSignature) and then by
size + 4 more.  A negative size (get32 is signed) can make an iteration a net
no-op, so the source loop can run forever; the fuel bounds the model and
exhausting it reports `diverged`.  fileSize + 1 fuel distinguishes the two:
the cursor value determines the rest of the run, and a terminating run
visits at most fileSize + 1 distinct in-range cursor values. -/
def scanDataChunk (br : ByteReader) : ℕ → ScanResult
  | 0 => ScanResult.diverged
  | fuel + 1 =>
      match br.getCheckSignature dataSig with
      | none => ScanResult.rangeError
      | some (true, br1) => ScanResult.found br1
      | some (false, br1) =>
          if br1.readOffset < (br1.fileByte.length : ℤ) then
            match br1.get32 with
            | none => ScanResult.rangeError
            | some (v, _) =>
                scanDataChunk
                  { br1 with readOffset := br1.readOffset + v + 4 } fuel
          else ScanResult.pastEnd br1

/-- LAppWavFileHandler.getPcmSample: widen one sample to 32 bits (8-, 16- or
24-bit depths; any other depth yields 0 without reading a byte) and normalise
by the signed 32-bit maximum 2147483647.  The JavaScript shifts operate on
Int32, so a high top bit makes the widened value negative. -/
def getPcmSample (bits : ℚ) (br : ByteReader) : Option (ℚ × ByteReader) :=
  if bits = 8 then
    (br.get8).map (fun p =>
      (((((p.1 : ℤ) - 128) * 16777216 : ℤ) : ℚ) / 2147483647, p.2))
  else if bits = 16 then
    (br.get16).map (fun p => (((toInt32 (p.1 * 65536) : ℤ) : ℚ) / 2147483647, p.2))
  else if bits = 24 then
    (br.get24).map (fun p => (((toInt32 (p.1 * 256) : ℤ) : ℚ) / 2147483647, p.2))
  else some (0, br)

/-- The waveform-reading loop of loadWavFile reads numberOfChannels samples
per sample index, sequentially (sample index outermost, channel innermost);
this reads `count` samples in that order, reporting the values read before a
read threw, and whether one threw. -/
def readSamples (bits : ℚ) (br : ByteReader) : ℕ → List ℚ × Bool
  | 0 => ([], false)
  | n + 1 =>
      match getPcmSample bits br with
      | none => ([], true)
      | some (v, br1) =>
          let rest := readSamples bits br1 n
          (v :: rest.1, rest.2)

/-- Distribute the sequentially read samples into the per-channel rows:
position s * channels + c of the flat list is sample s of channel c, and a
position past the end of the flat list (after a failed read) keeps the zero
fill of the Float32Array allocation. -/
def buildPcm (channels spc : ℕ) (flat : List ℚ) : List (List ℚ) :=
  (List.range channels).map (fun c =>
    (List.range spc).map (fun s => flat.getD (s * channels + c) 0))

/-- LAppWavFileHandler.loadWavFile on a byte stream: `some (b, s)` when the
promise resolves with b leaving handler state s, `none` when it never
resolves (the scan loop hangs).  Any previously loaded PCM data is released
first; reads outside the buffer and the explicit signature/format/data throws
all land in the catch block, after which the chained resolveValue(ret)
delivers false with the mutations made so far kept.

Numeric idealisation, none of it observed by any claim: _samplesPerChannel is
dataChunkSize * 8 / (bitsPerSample * numberOfChannels) as an exact rational
when the divisor is nonzero; with a zero divisor the source stores NaN (zero
dividend) or an infinity, and the model stores 0 instead.  A NaN length skips
both allocation loops (Float32Array(NaN) is empty, the sample loop guard
0 < NaN fails) and resolves true with empty rows; an infinite, negative or
fractional length throws at the first Float32Array allocation when there is
at least one channel (resolving false with the partially allocated array
collapsed to empty rows), while with zero channels a positive infinite length
hangs the sample loop and a negative one skips it. -/
def loadWavFile (filePath : String) (bytes : List ℕ) (s : WavHandlerState) :
    Option (Bool × WavHandlerState) :=
  let sR := { s with pcmData := none }
  if (bytes.length : ℤ) < 4 then some (false, sR)
  else
  let s1 := { sR with info := { sR.info with fileName := filePath } }
  match ByteReader.getCheckSignature ⟨bytes, 0⟩ riffSig with
  | none => some (false, s1)
  | some (false, _) => some (false, s1)
  | some (true, br1) =>
  match br1.get32 with
  | none => some (false, s1)
  | some (_, br2) =>
  match br2.getCheckSignature waveSig with
  | none => some (false, s1)
  | some (false, _) => some (false, s1)
  | some (true, br3) =>
  match br3.getCheckSignature fmtSig with
  | none => some (false, s1)
  | some (false, _) => some (false, s1)
  | some (true, br4) =>
  match br4.get32 with
  | none => some (false, s1)
  | some (fmtChunkSize, br5) =>
  match br5.get16 with
  | none => some (false, s1)
  | some (formatId, br6) =>
  if formatId ≠ 1 then some (false, s1)
  else
  match br6.get16 with
  | none => some (false, s1)
  | some (numChannels, br7) =>
  let s2 := { s1 with info := { s1.info with
    numberOfChannels := (numChannels : ℚ) } }
  match br7.get32 with
  | none => some (false, s2)
  | some (rate, br8) =>
  let s3 := { s2 with info := { s2.info with samplingRate := (rate : ℚ) } }
  match br8.get32 with
  | none => some (false, s3)
  | some (_, br9) =>
  match br9.get16 with
  | none => some (false, s3)
  | some (_, br10) =>
  match br10.get16 with
  | none => some (false, s3)
  | some (bits, br11) =>
  let s4 := { s3 with info := { s3.info with bitsPerSample := (bits : ℚ) } }
  let br12 := if fmtChunkSize > 16 then
      { br11 with readOffset := br11.readOffset + (fmtChunkSize - 16) }
    else br11
  match scanDataChunk br12 (bytes.length + 1) with
  | ScanResult.rangeError => some (false, s4)
  | ScanResult.diverged => none
  | ScanResult.pastEnd _ => some (false, s4)
  | ScanResult.found br13 =>
  if br13.readOffset ≥ (bytes.length : ℤ) then some (false, s4)
  else
  match br13.get32 with
  | none => some (false, s4)
  | some (dataChunkSize, br14) =>
  let den : ℚ := (bits : ℚ) * (numChannels : ℚ)
  let num : ℚ := (dataChunkSize : ℚ) * 8
  if den = 0 then
    if num = 0 then
      some (true, { s4 with
        pcmData := some (List.replicate numChannels []),
        info := { s4.info with samplesPerChannel := 0 } })
    else if numChannels = 0 then
      if 0 < num then none
      else some (true, { s4 with
        pcmData := some [],
        info := { s4.info with samplesPerChannel := 0 } })
    else
      some (false, { s4 with
        pcmData := some [],
        info := { s4.info with samplesPerChannel := 0 } })
  else
    let spc := num / den
    let s5 := { s4 with info := { s4.info with samplesPerChannel := spc } }
    if numChannels = 0 then some (true, { s5 with pcmData := some [] })
    else if spc.den = 1 ∧ 0 ≤ spc.num then
      let n := spc.num.toNat
      let res := readSamples (bits : ℚ) br14 (n * numChannels)
      some (!res.2, { s5 with pcmData := some (buildPcm numChannels n res.1) })
    else
      some (false, { s5 with pcmData := some [] })

/-- A 22-byte WAV header whose fmt chunk declares format code 2 (not linear
PCM): "RIFF", a size field, "WAVE", "fmt ", fmt chunk size 16, format id 2
little-endian. -/
def wavBytesFmt2 : List ℕ :=
  [82, 73, 70, 70, 0, 0, 0, 0, 87, 65, 86, 69, 102, 109, 116, 32,
    16, 0, 0, 0, 2, 0]

/-- External actions performed by the completion handlers installed by
playSound: revoking the two object URLs created for the call, releasing the
PCM buffers, and invoking the stored completion callback. -/
inductive PlayerAction where
  | revokePlayUrl
  | revokeAnalyzeUrl
  | releasePcm
  | invokeCallback (cb : ℕ)
deriving DecidableEq

/-- The audioElement.onended closure installed by playSound for the element
tagged `elem`: everything is guarded by the check that the handler's current
element is still this element; inside the guard the URLs are revoked, the
element reference and PCM data are cleared, and then, if a completion
callback is stored, it is saved, cleared to null, and only then invoked. -/
def onEnded (elem : ℕ) (s : WavHandlerState) :
    WavHandlerState × List PlayerAction :=
  if s.audioElement = some elem then
    let s1 := { s with audioElement := none, pcmData := none }
    match s.onFinish with
    | some cb =>
        ({ s1 with onFinish := none },
          [PlayerAction.revokePlayUrl, PlayerAction.revokeAnalyzeUrl,
            PlayerAction.releasePcm, PlayerAction.invokeCallback cb])
    | none =>
        (s1, [PlayerAction.revokePlayUrl, PlayerAction.revokeAnalyzeUrl,
          PlayerAction.releasePcm])
  else (s, [])

/-- The catch block of playSound for the element tagged `elem`: the URLs are
revoked unconditionally, the element reset and PCM release are guarded by the
current-element check, and then, if a completion callback is stored, it is
saved, cleared to null, and only then invoked. -/
def playSoundCatch (elem : ℕ) (s : WavHandlerState) :
    WavHandlerState × List PlayerAction :=
  let sp :=
    if s.audioElement = some elem then
      ({ s with audioElement := none, pcmData := none },
        [PlayerAction.revokePlayUrl, PlayerAction.revokeAnalyzeUrl,
          PlayerAction.releasePcm])
    else
      (s, [PlayerAction.revokePlayUrl, PlayerAction.revokeAnalyzeUrl])
  match sp.1.onFinish with
  | some cb =>
      ({ sp.1 with onFinish := none },
        sp.2 ++ [PlayerAction.invokeCallback cb])
  | none => sp

/-- A firing of one of the two completion paths of a playSound call: the
natural audio-ended event or the rejection of the awaited play/load pair,
each carrying the tag of the element the closure captured. -/
inductive CompletionEvent where
  | ended (elem : ℕ)
  | errored (elem : ℕ)
deriving DecidableEq

/-- Run one completion event against the handler state. -/
def completionStep (s : WavHandlerState) (e : CompletionEvent) :
    WavHandlerState × List PlayerAction :=
  match e with
  | CompletionEvent.ended elem => onEnded elem s
  | CompletionEvent.errored elem => playSoundCatch elem s

/-- Run a sequence of completion events, accumulating the actions. -/
def runCompletions (s : WavHandlerState) :
    List CompletionEvent → WavHandlerState × List PlayerAction
  | [] => (s, [])
  | e :: rest =>
      let p := completionStep s e
      let q := runCompletions p.1 rest
      (q.1, p.2 ++ q.2)

/-- How many callback invocations an action list contains. -/
def callbackCount (acts : List PlayerAction) : ℕ :=
  acts.countP (fun a =>
    match a with
    | PlayerAction.invokeCallback _ => true
    | _ => false)

/-- A concrete handler state used to exercise the completion handlers: it
currently owns audio element 1 and stores completion callback 7. -/
noncomputable def busyHandlerState : WavHandlerState :=
  { pcmData := some [[1]]
    userTimeSeconds := 0
    lastRms := some 0
    sampleOffset := 0
    info :=
      { fileName := ""
        numberOfChannels := 1
        bitsPerSample := 16
        samplingRate := 1
        samplesPerChannel := 1 }
    audioElement := some 1
    onFinish := some 7 }

/-- C1 counterexample: the four claimed steps of interrupt() do not occur in
order in the emitted trace, because the audio-stop step (step 3) is absent:
the stop() call is commented out in the source, so no stopAudio effect is
emitted at all. -/
theorem interrupt_order_claim_fails :
    ¬ ([Effect.sendInterruptSignal "", Effect.setState AiState.interrupted,
        Effect.stopAudio, Effect.clearQueue].Sublist (interruptEffects "")) := by
  intro h
  have hmem : Effect.stopAudio ∈ interruptEffects "" := h.subset (by simp)
  simp [interruptEffects] at hmem

/-- C1 (amended): interrupt() sends the interrupt-signal control message
carrying the accumulated partial response, sets the conversation state to
interrupted, and clears the playback task queue, in this order — in
particular the state is set strictly before the queue clear — but it performs
no audio-stop on the animation sink (that statement is commented out), so no
stopAudio effect occurs.  Afterwards the state is interrupted, the queue is
empty, and exactly one interrupt-signal message was appended to the sends. -/
theorem interrupt_order (r : String) (s : ChatState) :
    ([Effect.sendInterruptSignal r, Effect.setState AiState.interrupted,
       Effect.clearQueue].Sublist (interruptEffects r))
    ∧ Effect.stopAudio ∉ interruptEffects r
    ∧ (runInterrupt r s).aiState = AiState.interrupted
    ∧ (runInterrupt r s).queue = []
    ∧ (runInterrupt r s).sent = s.sent ++ [OutMessage.interruptSignal r] := by
  refine ⟨List.Sublist.refl _, ?_, ?_, ?_, ?_⟩ <;>
    simp [interruptEffects, runInterrupt, applyEffect, clearQueue]

/-- C3 counterexample: the second consecutive interrupt() call does produce an
additional side effect beyond a no-op queue clear — it sends the
interrupt-signal control message to the remote peer again, so after two calls
the peer has received two messages instead of one. -/
theorem interrupt_twice_resends_signal :
    (runInterrupt "" (runInterrupt ""
        { aiState := AiState.thinkingSpeaking, queue := [], sent := [] })).sent ≠
      (runInterrupt ""
        { aiState := AiState.thinkingSpeaking, queue := [], sent := [] }).sent := by
  decide

/-- C3 (amended): calling interrupt() twice consecutively yields the same end
conversation state and queue as calling it once — state interrupted and an
empty queue, the second clear being a no-op on the already-empty queue — but
the second call re-sends the interrupt-signal message, so the send log grows
by one more message. -/
theorem interrupt_idempotent_state (r : String) (s : ChatState) :
    (runInterrupt r (runInterrupt r s)).aiState = (runInterrupt r s).aiState
    ∧ (runInterrupt r (runInterrupt r s)).queue = (runInterrupt r s).queue
    ∧ (runInterrupt r s).aiState = AiState.interrupted
    ∧ (runInterrupt r s).queue = []
    ∧ (runInterrupt r (runInterrupt r s)).sent =
        (runInterrupt r s).sent ++ [OutMessage.interruptSignal r] := by
  refine ⟨?_, ?_, ?_, ?_, ?_⟩ <;>
    simp [runInterrupt, interruptEffects, applyEffect, clearQueue]

/-- C7: a VAD speech-start while the conversation state is thinking-speaking
triggers exactly one interrupt() call (witnessed by exactly one
interrupt-signal send in its effect trace); a speech-start in any other state
triggers zero. -/
theorem speech_start_interrupt_count (st : AiState) (r : String) :
    (onSpeechStartEffects st r).countP isInterruptSend =
      (if st = AiState.thinkingSpeaking then 1 else 0) := by
  by_cases h : st = AiState.thinkingSpeaking <;>
    simp [onSpeechStartEffects, h, interruptEffects, isInterruptSend]

/-- C2: a task dequeued while the conversation state is interrupted is a
defined no-op: handleAudioPlayback returns the abandonment action list
(error log then completion signal) for every option payload and environment,
so it never decodes or starts playing audio, never touches the subtitle or
response, and always signals completion so the queue can proceed; and
addAudioTask likewise refuses to enqueue while interrupted. -/
theorem interrupted_task_is_noop (opts : AudioTaskOptions)
    (m w d p : Bool) (q : List AudioTaskOptions) :
    handleAudioPlayback AiState.interrupted opts m w d p =
      [PlayAction.logError, PlayAction.callOnComplete]
    ∧ PlayAction.decodeAudio ∉ handleAudioPlayback AiState.interrupted opts m w d p
    ∧ PlayAction.startPlaySound ∉ handleAudioPlayback AiState.interrupted opts m w d p
    ∧ PlayAction.callOnComplete ∈ handleAudioPlayback AiState.interrupted opts m w d p
    ∧ addAudioTask AiState.interrupted q opts = q := by
  refine ⟨rfl, ?_, ?_, ?_, rfl⟩ <;> simp [handleAudioPlayback]

theorem chunkAudio_flatten (audio : List ℚ) :
    (chunkAudio audio).flatten = audio := by
  induction audio using chunkAudio.induct with
  | case1 => rw [chunkAudio]; rfl
  | case2 a rest ih =>
      rw [chunkAudio]
      simp only [List.flatten_cons, ih, List.take_append_drop]

theorem chunkAudio_length (audio : List ℚ) :
    (chunkAudio audio).length = (audio.length + 4095) / 4096 := by
  induction audio using chunkAudio.induct with
  | case1 => rw [chunkAudio]; rfl
  | case2 a rest ih =>
      rw [chunkAudio]
      simp only [List.length_cons, ih, List.length_drop]
      omega

theorem chunkAudio_sizes (audio : List ℚ) :
    (chunkAudio audio).map List.length = chunkSizes audio.length := by
  induction audio using chunkAudio.induct with
  | case1 =>
      rw [chunkAudio]
      simp only [List.map_nil, List.length_nil]
      rw [chunkSizes]
      simp
  | case2 a rest ih =>
      rw [chunkAudio, chunkSizes, dif_neg (by simp)]
      simp only [List.map_cons, ih, List.length_take, List.length_drop,
        List.length_cons]

theorem dataPayloads_send (audio : List ℚ) :
    dataPayloads (sendAudioPartition audio) = chunkAudio audio := by
  simp only [sendAudioPartition, dataPayloads, List.filterMap_append,
    List.filterMap_map]
  simp [Function.comp_def, List.filterMap_some]

theorem chunkSizes_le (n : ℕ) : ∀ k ∈ chunkSizes n, k ≤ 4096 := by
  rw [chunkSizes]
  by_cases h : n = 0
  · simp [h]
  · simp only [h, dif_neg, not_false_iff, List.mem_cons]
    intro k hk
    rcases hk with h1 | h2
    · subst h1; exact Nat.min_le_left _ _
    · exact chunkSizes_le (n - 4096) k h2
termination_by n
decreasing_by omega

theorem chunkSizes_ten_thousand : chunkSizes 10000 = [4096, 4096, 1808] := by
  rw [chunkSizes, dif_neg (by norm_num)]
  norm_num
  rw [chunkSizes, dif_neg (by norm_num)]
  norm_num
  rw [chunkSizes, dif_neg (by norm_num)]
  norm_num
  rw [chunkSizes]
  simp

/-- C6: transmitting a captured segment of L samples sends exactly
ceil(L/4096) mic-audio-data messages carrying consecutive chunks of at most
4096 samples whose concatenation equals the segment, followed by exactly one
mic-audio-end message placed last; in particular a 10000-sample segment
produces exactly 3 data sends of sizes 4096, 4096 and 1808. -/
theorem send_audio_partition_spec (audio : List ℚ) :
    (dataPayloads (sendAudioPartition audio)).length =
      (audio.length + 4095) / 4096
    ∧ (dataPayloads (sendAudioPartition audio)).flatten = audio
    ∧ (∀ c ∈ dataPayloads (sendAudioPartition audio), c.length ≤ 4096)
    ∧ (sendAudioPartition audio).count OutMessage.micAudioEnd = 1
    ∧ (sendAudioPartition audio).getLast? = some OutMessage.micAudioEnd
    ∧ (audio.length = 10000 →
        (dataPayloads (sendAudioPartition audio)).map List.length =
          [4096, 4096, 1808]) := by
  refine ⟨?_, ?_, ?_, ?_, ?_, ?_⟩
  · rw [dataPayloads_send, chunkAudio_length]
  · rw [dataPayloads_send, chunkAudio_flatten]
  · rw [dataPayloads_send]
    intro c hc
    have : c.length ∈ (chunkAudio audio).map List.length :=
      List.mem_map_of_mem List.length hc
    rw [chunkAudio_sizes] at this
    exact chunkSizes_le audio.length c.length this
  · simp [sendAudioPartition, List.count_append, List.count_eq_zero]
  · simp [sendAudioPartition]
  · intro h
    rw [dataPayloads_send, chunkAudio_sizes, h, chunkSizes_ten_thousand]

/-- C6 witness: the 10000-sample instance, at the all-zero segment. -/
theorem send_audio_partition_spec_witness :
    (List.replicate 10000 (0 : ℚ)).length = 10000 ∧
    (dataPayloads (sendAudioPartition (List.replicate 10000 (0 : ℚ)))).map
        List.length = [4096, 4096, 1808] :=
  ⟨by rw [List.length_replicate],
    (send_audio_partition_spec (List.replicate 10000 (0 : ℚ))).2.2.2.2.2
      (by rw [List.length_replicate])⟩

theorem step_triggered_eq_max (p q : ℚ) :
    stepTriggeredProbability p (VadEvent.frame q) = max p q := by
  simp only [stepTriggeredProbability]
  rcases le_or_lt q p with h | h
  · rw [if_neg (not_lt.mpr h), max_eq_left h]
  · rw [if_pos h, max_eq_right (le_of_lt h)]

/-- C8 counterexample: after the sequence frame 0.9, speech-start, frame 0.5
the stored triggered probability is 0.9, not the claimed maximum 0.5 observed
since the most recent speech-start: the running maximum is never re-based,
because onSpeechStart does not reset the variable. -/
theorem triggered_probability_claim_fails :
    triggeredProbability
        [VadEvent.frame (9/10), VadEvent.speechStart, VadEvent.frame (1/2)] ≠
      specTriggeredProbability
        [VadEvent.frame (9/10), VadEvent.speechStart, VadEvent.frame (1/2)] := by
  norm_num [triggeredProbability, specTriggeredProbability,
    stepTriggeredProbability, List.foldl]

theorem foldl_triggered_eq_foldl_max (events : List VadEvent) (p : ℚ) :
    events.foldl stepTriggeredProbability p =
      (events.filterMap frameProb).foldl max p := by
  induction events generalizing p with
  | nil => rfl
  | cons e rest ih =>
      cases e with
      | frame q =>
          simp only [List.foldl_cons, List.filterMap_cons, frameProb,
            step_triggered_eq_max]
          exact ih (max p q)
      | speechStart =>
          simp only [List.foldl_cons, List.filterMap_cons, frameProb,
            stepTriggeredProbability]
          exact ih p

/-- C8 (amended): after any sequence of VAD events, the stored
previousTriggeredProbability equals the running maximum of all frame
probabilities observed since initialisation (together with the initial 0) —
it is never re-based at a speech-start, since onSpeechStart only logs the
value. -/
theorem triggered_probability_running_max (events : List VadEvent) :
    triggeredProbability events =
      (events.filterMap frameProb).foldl max 0 :=
  foldl_triggered_eq_foldl_max events 0

theorem ratRange_self (x : ℚ) : ratRange x x = [] := by
  simp [ratRange]

theorem foldl_id {α β : Type} (l : List β) (a : α) :
    l.foldl (fun acc _ => acc) a = a := by
  induction l with
  | nil => rfl
  | cons x rest ih => simp only [List.foldl_cons]; exact ih

theorem sumSquares_empty_window (pcm : List (List ℚ)) (channels lo : ℚ) :
    sumSquares pcm channels lo lo = some 0 := by
  simp only [sumSquares, ratRange_self, List.foldl_nil]
  exact foldl_id _ _

theorem jsDiv_zero_denom (x : JsNum) : jsDiv x (some 0) = none := by
  cases x <;> simp [jsDiv]

/-- C4 (amended): an update() call with data loaded and the position not yet
at the end whose newly advanced sample window is empty (the clamped goal
offset equals the current offset, e.g. deltaTimeSeconds = 0 mid-playback)
returns true and caches NaN, not 0: the mean divides by
numberOfChannels * (goal - offset) = 0 with no guard, 0/0 is NaN, and
Math.sqrt(NaN) is NaN. -/
theorem update_empty_window_nan (delta : ℚ) (s : WavHandlerState)
    (pcm : List (List ℚ)) (h1 : s.pcmData = some pcm)
    (h2 : ¬ s.sampleOffset ≥ s.info.samplesPerChannel)
    (h3 : goalOffset delta s = s.sampleOffset) :
    (update delta s).1 = true ∧ (update delta s).2.lastRms = none := by
  constructor
  · simp [update, h1, h2]
  · simp [update, h1, h2, h3, jsDiv_zero_denom, jsSqrt]

/-- C4 witness: a freshly loaded 2-sample mono buffer updated with
deltaTimeSeconds = 0. -/
theorem update_empty_window_nan_witness :
    (update 0 (loadedState [[1/2, 1/2]]
        { fileName := "", numberOfChannels := 1, bitsPerSample := 16,
          samplingRate := 1, samplesPerChannel := 2 })).1 = true
    ∧ (update 0 (loadedState [[1/2, 1/2]]
        { fileName := "", numberOfChannels := 1, bitsPerSample := 16,
          samplingRate := 1, samplesPerChannel := 2 })).2.lastRms = none :=
  update_empty_window_nan 0 _ [[1/2, 1/2]] rfl
    (by norm_num [loadedState])
    (by norm_num [goalOffset, loadedState])

/-- C4 counterexample: on a freshly loaded 2-sample mono buffer, update(0)
has an empty window and caches NaN, not the claimed 0: there is no
divide-by-zero guard in the RMS mean. -/
theorem update_empty_window_claim_fails :
    (update 0 (loadedState [[1/2, 1/2]]
        { fileName := "", numberOfChannels := 1, bitsPerSample := 16,
          samplingRate := 1, samplesPerChannel := 2 })).2.lastRms ≠ some 0
    ∧ (update 0 (loadedState [[1/2, 1/2]]
        { fileName := "", numberOfChannels := 1, bitsPerSample := 16,
          samplingRate := 1, samplesPerChannel := 2 })).2.lastRms = none := by
  have h : (update 0 (loadedState [[1/2, 1/2]]
      { fileName := "", numberOfChannels := 1, bitsPerSample := 16,
        samplingRate := 1, samplesPerChannel := 2 })).2.lastRms = none := by
    norm_num [update, loadedState, goalOffset, jsDiv_zero_denom, jsSqrt]
  exact ⟨by rw [h]; exact fun hc => Option.noConfusion hc, h⟩

theorem jsIndexG_natCast {α : Type} (l : List α) (n : ℕ) :
    jsIndexG l (n : ℚ) = l[n]? := by
  simp [jsIndexG, Rat.den_natCast, Rat.num_natCast]

theorem ratRange_zero_natCast (N : ℕ) :
    ratRange 0 (N : ℚ) = (List.range N).map (Nat.cast : ℕ → ℚ) := by
  unfold ratRange
  rw [sub_zero, Int.ceil_natCast, Int.toNat_natCast]
  refine List.map_congr_left (fun i _ => ?_)
  exact zero_add _

theorem foldl_replicate_row (N : ℕ) (a : ℚ) :
    ∀ (M : ℕ), M ≤ N → ∀ (q : ℚ),
    ((List.range M).map (Nat.cast : ℕ → ℚ)).foldl
      (fun acc2 i => jsAdd acc2 (jsMul (jsIndexG (List.replicate N a) i)
        (jsIndexG (List.replicate N a) i))) (some q) =
      some (q + M * a ^ 2) := by
  intro M
  induction M with
  | zero => intro _ q; simp
  | succ M ih =>
      intro hM q
      rw [List.range_succ, List.map_append, List.foldl_append]
      rw [ih (by omega) q]
      simp only [List.map_cons, List.map_nil, List.foldl_cons, List.foldl_nil]
      rw [jsIndexG_natCast, List.getElem?_replicate, if_pos (by omega)]
      simp only [jsMul, jsAdd]
      congr 1
      push_cast
      ring

theorem sumSquares_single_replicate (N : ℕ) (a : ℚ) :
    sumSquares [List.replicate N a] 1 0 (N : ℚ) = some ((N : ℚ) * a ^ 2) := by
  unfold sumSquares
  rw [show (1 : ℚ) = ((1 : ℕ) : ℚ) by norm_num, ratRange_zero_natCast,
    ratRange_zero_natCast]
  rw [show List.range 1 = [0] from rfl]
  simp only [List.map_cons, List.map_nil, List.foldl_cons,
    List.foldl_nil, Nat.cast_zero]
  have hrow : jsIndexG [List.replicate N a] ((0 : ℕ) : ℚ) =
      some (List.replicate N a) := by
    rw [jsIndexG_natCast]; rfl
  simp only [Nat.cast_zero] at hrow
  simp only [hrow, Option.some_bind]
  have := foldl_replicate_row N a N le_rfl 0
  rw [this, zero_add]

/-- C5: for a loaded synthetic single-channel linear-PCM buffer of N >= 1
identical samples of normalised amplitude a >= 0, one update call whose
elapsed time covers the whole buffer (floor(delta * rate) >= N) returns true
and caches an RMS value equal to a, so getRms then returns a. -/
theorem update_constant_buffer_rms (N : ℕ) (a delta rate bits : ℚ)
    (name : String) (hN : 1 ≤ N) (ha : 0 ≤ a)
    (hcover : (N : ℤ) ≤ ⌊delta * rate⌋) :
    (update delta (loadedState [List.replicate N a]
        { fileName := name, numberOfChannels := 1, bitsPerSample := bits,
          samplingRate := rate, samplesPerChannel := (N : ℚ) })).1 = true
    ∧ getRms (update delta (loadedState [List.replicate N a]
        { fileName := name, numberOfChannels := 1, bitsPerSample := bits,
          samplingRate := rate, samplesPerChannel := (N : ℚ) })).2 =
      some ((a : ℝ)) := by
  have hNpos : (0 : ℚ) < (N : ℚ) := by exact_mod_cast hN
  have hnotend : ¬ ((0 : ℚ) ≥ (N : ℚ)) := not_le.mpr hNpos
  have hgoal : goalOffset delta (loadedState [List.replicate N a]
      { fileName := name, numberOfChannels := 1, bitsPerSample := bits,
        samplingRate := rate, samplesPerChannel := (N : ℚ) }) = (N : ℚ) := by
    unfold goalOffset loadedState
    simp only [zero_add]
    by_cases hc : (((⌊delta * rate⌋ : ℤ) : ℚ)) > (N : ℚ)
    · rw [if_pos hc]
    · rw [if_neg hc]
      have h1 : ((N : ℤ) : ℚ) ≤ ((⌊delta * rate⌋ : ℤ) : ℚ) := by
        exact_mod_cast hcover
      push_cast at h1
      exact le_antisymm (not_lt.mp hc) h1
  simp only [loadedState] at hgoal
  have hdiv : jsDiv (some ((N : ℚ) * a ^ 2)) (some (1 * ((N : ℚ) - 0))) =
      some (a ^ 2) := by
    have hden : (1 : ℚ) * ((N : ℚ) - 0) = (N : ℚ) := by ring
    rw [hden]
    simp only [jsDiv]
    rw [if_neg (ne_of_gt hNpos)]
    congr 1
    field_simp
  have hsqrt : jsSqrt (some (a ^ 2)) = some ((a : ℝ)) := by
    simp only [jsSqrt]
    rw [if_neg (not_lt.mpr (sq_nonneg a))]
    congr 1
    push_cast
    exact Real.sqrt_sq (by exact_mod_cast ha)
  constructor
  · simp only [update, loadedState, hnotend]
    simp [hnotend]
  · simp only [getRms, update, loadedState]
    rw [if_neg hnotend]
    simp only [hgoal]
    rw [sumSquares_single_replicate, hdiv, hsqrt]

/-- C5 witness: three samples of amplitude one half at sampling rate 3,
updated for one full second. -/
theorem update_constant_buffer_rms_witness :
    (1 ≤ 3 ∧ (0 : ℚ) ≤ 1/2 ∧ ((3 : ℕ) : ℤ) ≤ ⌊(1 : ℚ) * 3⌋)
    ∧ (update 1 (loadedState [List.replicate 3 (1/2 : ℚ)]
        { fileName := "", numberOfChannels := 1, bitsPerSample := 16,
          samplingRate := 3, samplesPerChannel := ((3 : ℕ) : ℚ) })).1 = true
    ∧ getRms (update 1 (loadedState [List.replicate 3 (1/2 : ℚ)]
        { fileName := "", numberOfChannels := 1, bitsPerSample := 16,
          samplingRate := 3, samplesPerChannel := ((3 : ℕ) : ℚ) })).2 =
      some (((1/2 : ℚ) : ℝ)) := by
  have hfloor : ((3 : ℕ) : ℤ) ≤ ⌊(1 : ℚ) * 3⌋ := by
    rw [show (1 : ℚ) * 3 = ((3 : ℤ) : ℚ) by norm_num, Int.floor_intCast]
    norm_num
  have h := update_constant_buffer_rms 3 (1/2) 1 3 16 ""
    (by norm_num) (by norm_num) hfloor
  exact ⟨⟨by norm_num, by norm_num, hfloor⟩, h.1, h.2⟩

/-- C9: for every WAV byte stream on which the parse reaches the fmt format
field (the RIFF, WAVE and fmt signature checks succeed and the size and
format-id reads are in bounds) with a declared format code different from 1,
loadWavFile resolves to false — the throw is caught, nothing escapes to the
caller — and the per-channel PCM data is null: the sample buffers are only
allocated after the format check, and the entry release has already nulled
any previous data. -/
theorem load_wav_rejects_non_pcm (filePath : String) (bytes : List ℕ)
    (s : WavHandlerState) (fileSz fmtSz : ℤ) (formatId : ℕ)
    (hlen : ¬ ((bytes.length : ℤ) < 4))
    (hriff : ByteReader.getCheckSignature ⟨bytes, 0⟩ riffSig =
      some (true, ⟨bytes, 4⟩))
    (hsz : ByteReader.get32 ⟨bytes, 4⟩ = some (fileSz, ⟨bytes, 8⟩))
    (hwave : ByteReader.getCheckSignature ⟨bytes, 8⟩ waveSig =
      some (true, ⟨bytes, 12⟩))
    (hfmt : ByteReader.getCheckSignature ⟨bytes, 12⟩ fmtSig =
      some (true, ⟨bytes, 16⟩))
    (hfmtsz : ByteReader.get32 ⟨bytes, 16⟩ = some (fmtSz, ⟨bytes, 20⟩))
    (hid : ByteReader.get16 ⟨bytes, 20⟩ = some (formatId, ⟨bytes, 22⟩))
    (hnot1 : formatId ≠ 1) :
    ∃ sf, loadWavFile filePath bytes s = some (false, sf)
      ∧ sf.pcmData = none := by
  refine ⟨{ s with
              pcmData := none
              info := { s.info with fileName := filePath } }, ?_, rfl⟩
  simp only [loadWavFile, hlen, hriff, hsz, hwave, hfmt, hfmtsz, hid,
    if_false, if_true, not_false_iff]
  rw [if_pos hnot1]

/-- C9 witness: a 22-byte header declaring format code 2. -/
theorem load_wav_rejects_non_pcm_witness :
    (ByteReader.get16 ⟨wavBytesFmt2, 20⟩ = some (2, ⟨wavBytesFmt2, 22⟩)
      ∧ (2 : ℕ) ≠ 1)
    ∧ ∃ sf, loadWavFile "voice.wav" wavBytesFmt2
        (loadedState []
          { fileName := "", numberOfChannels := 0, bitsPerSample := 0,
            samplingRate := 0, samplesPerChannel := 0 }) =
        some (false, sf) ∧ sf.pcmData = none := by
  constructor
  · exact ⟨by decide, by decide⟩
  · exact load_wav_rejects_non_pcm "voice.wav" wavBytesFmt2 _ 0 16 2
      (by decide) (by decide) (by decide) (by decide) (by decide) (by decide)
      (by decide) (by decide)

theorem callbackCount_append (l1 l2 : List PlayerAction) :
    callbackCount (l1 ++ l2) = callbackCount l1 + callbackCount l2 := by
  simp [callbackCount, List.countP_append]

theorem completionStep_callback_cases (s : WavHandlerState)
    (e : CompletionEvent) :
    (callbackCount (completionStep s e).2 = 0
      ∧ (completionStep s e).1.onFinish = s.onFinish)
    ∨ (callbackCount (completionStep s e).2 = 1
      ∧ (completionStep s e).1.onFinish = none ∧ s.onFinish ≠ none) := by
  cases e with
  | ended elem =>
      by_cases hg : s.audioElement = some elem
      · cases hf : s.onFinish with
        | none => left; simp [completionStep, onEnded, hg, hf, callbackCount]
        | some cb =>
            right; simp [completionStep, onEnded, hg, hf, callbackCount]
      · left; simp [completionStep, onEnded, hg, callbackCount]
  | errored elem =>
      by_cases hg : s.audioElement = some elem
      · cases hf : s.onFinish with
        | none =>
            left; simp [completionStep, playSoundCatch, hg, hf, callbackCount]
        | some cb =>
            right; simp [completionStep, playSoundCatch, hg, hf, callbackCount]
      · cases hf : s.onFinish with
        | none =>
            left; simp [completionStep, playSoundCatch, hg, hf, callbackCount]
        | some cb =>
            right; simp [completionStep, playSoundCatch, hg, hf, callbackCount]

theorem runCompletions_callback_bound (events : List CompletionEvent) :
    ∀ s : WavHandlerState,
    callbackCount (runCompletions s events).2 ≤
      (if s.onFinish = none then 0 else 1) := by
  induction events with
  | nil => intro s; simp [runCompletions, callbackCount]
  | cons e rest ih =>
      intro s
      simp only [runCompletions, callbackCount_append]
      rcases completionStep_callback_cases s e with ⟨h0, hpres⟩ | ⟨h1, hnone, hsome⟩
      · have hrest := ih (completionStep s e).1
        rw [hpres] at hrest
        by_cases hf : s.onFinish = none
        · rw [if_pos hf] at hrest ⊢
          omega
        · rw [if_neg hf] at hrest ⊢
          omega
      · have hrest := ih (completionStep s e).1
        rw [hnone] at hrest
        norm_num at hrest
        rw [if_neg hsome]
        omega

theorem completionStep_invoke_mem (s : WavHandlerState) (e : CompletionEvent)
    (cb : ℕ)
    (hmem : PlayerAction.invokeCallback cb ∈ (completionStep s e).2) :
    (completionStep s e).1.onFinish = none ∧ s.onFinish = some cb := by
  cases e with
  | ended elem =>
      by_cases hg : s.audioElement = some elem
      · cases hf : s.onFinish with
        | none => simp [completionStep, onEnded, hg, hf] at hmem
        | some c =>
            simp [completionStep, onEnded, hg, hf] at hmem ⊢
            simp [hmem]
      · simp [completionStep, onEnded, hg] at hmem
  | errored elem =>
      by_cases hg : s.audioElement = some elem
      · cases hf : s.onFinish with
        | none => simp [completionStep, playSoundCatch, hg, hf] at hmem
        | some c =>
            simp [completionStep, playSoundCatch, hg, hf] at hmem ⊢
            simp [hmem]
      · cases hf : s.onFinish with
        | none => simp [completionStep, playSoundCatch, hg, hf] at hmem
        | some c =>
            simp [completionStep, playSoundCatch, hg, hf] at hmem ⊢
            simp [hmem]

/-- C10: for a single playSound invocation, (1) across any sequence of
firings of its completion handlers the stored onFinish callback is invoked
at most once; (2) whenever a handler fires the callback, the invoked callback
is the stored one and the stored reference was cleared to null beforehand,
on the audio-ended path and the error path alike; (3) the audio-ended
cleanup (URL revocation, PCM release, element reset) runs only when the
handler's current audio element is still the element that ended — an onended
firing for a stale element changes no state and performs no action, so a
newer playSound call's state is never torn down by an older element's
completion. -/
theorem playsound_callback_once (s : WavHandlerState)
    (events : List CompletionEvent) (e : CompletionEvent) (elem cb : ℕ)
    (hstale : s.audioElement ≠ some elem) :
    callbackCount (runCompletions s events).2 ≤ 1
    ∧ (PlayerAction.invokeCallback cb ∈ (completionStep s e).2 →
        (completionStep s e).1.onFinish = none ∧ s.onFinish = some cb)
    ∧ onEnded elem s = (s, []) := by
  refine ⟨?_, completionStep_invoke_mem s e cb, ?_⟩
  · exact le_trans (runCompletions_callback_bound events s)
      (by by_cases hf : s.onFinish = none <;> simp [hf])
  · simp [onEnded, hstale]

/-- C10 witness: a handler holding element 1 and callback 7; firing the
handlers of element 1 twice invokes the callback at most once; an onended for
the stale element 2 is a no-op. -/
theorem playsound_callback_once_witness :
    busyHandlerState.audioElement ≠ some 2
    ∧ (callbackCount (runCompletions busyHandlerState
        [CompletionEvent.ended 1, CompletionEvent.errored 1]).2 ≤ 1
      ∧ onEnded 2 busyHandlerState = (busyHandlerState, [])) := by
  have hstale : busyHandlerState.audioElement ≠ some 2 := by
    simp [busyHandlerState]
  have h := playsound_callback_once busyHandlerState
    [CompletionEvent.ended 1, CompletionEvent.errored 1]
    (CompletionEvent.ended 1) 2 7 hstale
  exact ⟨hstale, h.1, h.2.2⟩

end OpenLLMVTuber
